import Mathlib

/-!
Verification of the pixel-contrast remediation agent (`pixel_contrast_agent.py`)
and the RTL transform pipeline around it.

The definitions below are a shallow embedding of the Python source:
floating-point arithmetic is modelled by exact real arithmetic (`ℝ`),
integer/histogram arithmetic by `ℚ`/`ℕ`, machine `uint8` colors by natural
number triples, and fallible code (subprocess failures, assertions) by
`Except`.
-/

set_option maxHeartbeats 1000000

namespace KsaTranslate


/-- An RGB color, one channel per byte (the source keeps colors as
`Tuple[int,int,int]` of `uint8` values). -/
structure RGB where
  r : ℕ
  g : ℕ
  b : ℕ
  deriving DecidableEq, Repr

/-- A color actually representable by `uint8` channels. -/
def RGB.valid (c : RGB) : Prop := c.r ≤ 255 ∧ c.g ≤ 255 ∧ c.b ≤ 255

instance (c : RGB) : Decidable c.valid := by unfold RGB.valid; infer_instance

/-- `srgb_to_linear(c)`: gamma expansion of one channel value in `[0,1]`,
`c/12.92` below the `0.04045` cutoff, else `((c+0.055)/1.055) ** 2.4`. -/
noncomputable def srgb_to_linear (c : ℝ) : ℝ :=
  if c ≤ 0.04045 then c / 12.92 else ((c + 0.055) / 1.055) ^ (2.4 : ℝ)

/-- `rel_luminance(rgb)`: WCAG relative luminance
`0.2126*R + 0.7152*G + 0.0722*B` of the linearized channels. -/
noncomputable def rel_luminance (c : RGB) : ℝ :=
  0.2126 * srgb_to_linear (c.r / 255) +
  0.7152 * srgb_to_linear (c.g / 255) +
  0.0722 * srgb_to_linear (c.b / 255)

/-- `contrast_ratio(fg, bg)`: `(Lmax + 0.05) / (Lmin + 0.05)` where
`Lmax, Lmin = (L1, L2) if L1 >= L2 else (L2, L1)`. -/
noncomputable def contrast_ratio (fg bg : RGB) : ℝ :=
  let L1 := rel_luminance fg
  let L2 := rel_luminance bg
  if L1 ≥ L2 then (L1 + 0.05) / (L2 + 0.05) else (L2 + 0.05) / (L1 + 0.05)

/-! ### Text frame model and RTL paragraph enforcement -/

/-- Paragraph alignment (`PP_ALIGN`). -/
inductive PPAlign where
  | LEFT
  | CENTER
  | RIGHT
  deriving DecidableEq, Repr

/-- One text run: its explicit font color (if any) and language id. -/
structure TextRun where
  color : Option RGB
  lang : Option String
  deriving DecidableEq, Repr

/-- One paragraph: python-pptx `alignment` plus the raw `pPr` attributes
`rtl` and `algn`, and the ordered runs. -/
structure Paragraph where
  alignment : Option PPAlign
  rtl : Option String
  algn : Option String
  runs : List TextRun
  deriving DecidableEq, Repr

/-- `ensure_paragraph_rtl(tf)`: for every paragraph set alignment to RIGHT,
`rtl="1"`, `algn="r"`, and tag every run with the Arabic (Saudi Arabia)
language id. -/
def ensure_paragraph_rtl (tf : List Paragraph) : List Paragraph :=
  tf.map fun p =>
    { alignment := some PPAlign.RIGHT
      rtl := some "1"
      algn := some "r"
      runs := p.runs.map fun r => { r with lang := some "ARABIC_SAUDI_ARABIA" } }

/-- `set_runs_color(tf, rgb)`: write the given color into every run of every
paragraph. -/
def set_runs_color (tf : List Paragraph) (c : RGB) : List Paragraph :=
  tf.map fun p => { p with runs := p.runs.map fun r => { r with color := some c } }

/-! ### Remediation policy -/

/-- Outcome of the per-shape remediation block of `process_pptx`: the audit
fields it determines. -/
structure RemedResult where
  ratio_after : ℝ
  fixed : Bool
  applied : Option RGB
  note : String

/-- The remediation decision of `process_pptx` for one text shape, given the
measured current foreground `fg_before` and sampled background `bg`:
if `ratio_before < min_contrast`, try both brand colors and keep the better
one when it beats `ratio_before`, otherwise force pure black or pure white
(whichever is better) and note the fallback; above the threshold nothing is
touched. -/
noncomputable def remediate (brand_dark brand_light : RGB) (min_contrast : ℝ)
    (fg_before bg : RGB) : RemedResult :=
  let ratio_before := contrast_ratio fg_before bg
  if ratio_before < min_contrast then
    let cr_dark := contrast_ratio brand_dark bg
    let cr_light := contrast_ratio brand_light bg
    let best_rgb := if cr_dark ≥ cr_light then brand_dark else brand_light
    let best_cr := max cr_dark cr_light
    if best_cr > ratio_before then
      ⟨best_cr, true, some best_rgb, ""⟩
    else
      let cr_b := contrast_ratio ⟨0, 0, 0⟩ bg
      let cr_w := contrast_ratio ⟨255, 255, 255⟩ bg
      let best := if cr_b ≥ cr_w then (⟨0, 0, 0⟩ : RGB) else ⟨255, 255, 255⟩
      ⟨max cr_b cr_w, true, some best, "used BW fallback"⟩
  else
    ⟨ratio_before, false, none, ""⟩

/-- The run-color mutation the remediation block performs: `set_runs_color`
exactly when a color was chosen. -/
def apply_fix (tf : List Paragraph) (applied : Option RGB) : List Paragraph :=
  match applied with
  | some c => set_runs_color tf c
  | none => tf

/-! ### Otsu segmentation and cluster color estimation -/

/-- Grayscale value of a pixel, `(0.2126*R + 0.7152*G + 0.0722*B)` truncated
to an integer (the `astype(np.uint8)` cast). -/
def grayOf (p : RGB) : ℕ := (2126 * p.r + 7152 * p.g + 722 * p.b) / 10000

/-- Histogram mass of gray level `i` over the first `t` levels (the running
`w_b` of the Otsu loop after processing bins `0..t-1`). -/
def cumW (gray : List ℕ) (t : ℕ) : ℚ :=
  ∑ i ∈ Finset.range t, (gray.count i : ℚ)

/-- Running `sum_b` of the Otsu loop after processing bins `0..t-1`. -/
def cumS (gray : List ℕ) (t : ℕ) : ℚ :=
  ∑ i ∈ Finset.range t, (i : ℚ) * (gray.count i : ℚ)

/-- Between-class variance of the split at threshold `t` (the quantity
`w_b * w_f * (m_b - m_f)^2` the loop maximizes); zero when one side of the
split is empty. -/
def var_between (gray : List ℕ) (t : ℕ) : ℚ :=
  let w_b := cumW gray (t + 1)
  let w_f := (gray.length : ℚ) - w_b
  if w_b = 0 ∨ w_f = 0 then 0
  else
    w_b * w_f *
      (cumS gray (t + 1) / w_b - (cumS gray 256 - cumS gray (t + 1)) / w_f) ^ 2

/-- The `for t in range(256)` loop of `otsu_threshold`, by recursion on the
number of remaining iterations: state is `(t, sum_b, w_b, max_var, threshold)`,
`continue` when the running `w_b` is zero, `break` (returning the current
threshold) when `w_f` hits zero, otherwise update the best threshold when the
between-class variance strictly improves. -/
def otsu_go (h : ℕ → ℚ) (total sum_all : ℚ) :
    ℕ → ℕ → ℚ → ℚ → ℚ → ℕ → ℕ
  | 0, _, _, _, _, th => th
  | n + 1, t, sum_b, w_b, max_var, th =>
    let w_b' := w_b + h t
    if w_b' = 0 then otsu_go h total sum_all n (t + 1) sum_b w_b' max_var th
    else if total - w_b' = 0 then th
    else
      let sum_b' := sum_b + (t : ℚ) * h t
      let m_b := sum_b' / w_b'
      let m_f := (sum_all - sum_b') / (total - w_b')
      let v := w_b' * (total - w_b') * (m_b - m_f) ^ 2
      if max_var < v then otsu_go h total sum_all n (t + 1) sum_b' w_b' v t
      else otsu_go h total sum_all n (t + 1) sum_b' w_b' max_var th

/-- `otsu_threshold(gray)`: initial accumulators `sum_b = 0`, `w_b = 0`,
`max_var = -1`, `threshold = 127`, looping over all 256 bins. -/
def otsu_threshold (gray : List ℕ) : ℕ :=
  otsu_go (fun t => (gray.count t : ℚ)) (gray.length : ℚ) (cumS gray 256)
    256 0 0 0 (-1) 127

/-- `np.percentile(gray, 10)` with the default linear interpolation:
`pos = (n-1) * 0.10`, interpolate between the two neighbouring order
statistics. -/
def percentile10 (l : List ℕ) : ℚ :=
  if l.length = 0 then 0
  else
    let s := l.mergeSort (· ≤ ·)
    let pos : ℚ := ((l.length : ℚ) - 1) / 10
    let i : ℕ := pos.floor.toNat
    let frac : ℚ := pos - (pos.floor : ℚ)
    (s.getD i 0 : ℚ) + frac * ((s.getD (i + 1) (s.getD i 0) : ℚ) - (s.getD i 0 : ℚ))

/-- `np.median` of a list of channel values followed by the `uint8` cast:
middle order statistic, or the truncated average of the two middle ones. -/
def medianNat (l : List ℕ) : ℕ :=
  if l.length = 0 then 0
  else if l.length % 2 = 1 then (l.mergeSort (· ≤ ·)).getD (l.length / 2) 0
  else ((l.mergeSort (· ≤ ·)).getD (l.length / 2 - 1) 0 +
    (l.mergeSort (· ≤ ·)).getD (l.length / 2) 0) / 2

/-- Per-channel median color (`np.median(pixels, axis=0).astype(np.uint8)`). -/
def medianColor (l : List RGB) : RGB :=
  ⟨medianNat (l.map RGB.r), medianNat (l.map RGB.g), medianNat (l.map RGB.b)⟩

/-- The Otsu dark mask `gray <= t`. -/
def otsu_mask (region : List RGB) : RGB → Bool :=
  fun p => decide (grayOf p ≤ otsu_threshold (region.map grayOf))

/-- `mask_dark.mean()`: fraction of pixels in the Otsu dark cluster. -/
def dark_fraction (region : List RGB) : ℚ :=
  ((region.filter (otsu_mask region)).length : ℚ) / (region.length : ℚ)

/-- The fallback mask `gray <= np.percentile(gray, 10)`. -/
def percentile_mask (region : List RGB) : RGB → Bool :=
  fun p => decide ((grayOf p : ℚ) ≤ percentile10 (region.map grayOf))

/-- The mask actually used: the Otsu split unless it is degenerate (dark
cluster under 2% or over 98% of the pixels), in which case the darkest-decile
fallback. -/
def region_mask (region : List RGB) : RGB → Bool :=
  if dark_fraction region < 2/100 ∨ 98/100 < dark_fraction region then
    percentile_mask region
  else otsu_mask region

/-- Split the region by a mask, take per-channel medians of the two clusters,
return `(fg, bg)` with the darker (lower relative luminance) median first,
or `(black, whole-region median)` when one cluster is empty. -/
noncomputable def cluster_split (region : List RGB) (mask : RGB → Bool) :
    RGB × RGB :=
  let fg_pixels := region.filter mask
  let bg_pixels := region.filter (fun p => ! mask p)
  if fg_pixels = [] ∨ bg_pixels = [] then
    (⟨0, 0, 0⟩, medianColor region)
  else
    let fg_median := medianColor fg_pixels
    let bg_median := medianColor bg_pixels
    if rel_luminance fg_median > rel_luminance bg_median then
      (bg_median, fg_median)
    else (fg_median, bg_median)

/-- `estimate_fg_bg_from_region(region_rgb)`. -/
noncomputable def estimate_fg_bg_from_region (region : List RGB) : RGB × RGB :=
  cluster_split region (region_mask region)

/-! ### Geometry mapping, per-shape step and document pipeline -/

/-- Python `int()` truncation toward zero of an exact (float-modelled) value. -/
def pyint (q : ℚ) : ℤ := if 0 ≤ q then ⌊q⌋ else -⌊-q⌋

/-- Python 3 `round()`: nearest integer, ties to even. -/
def pyround (q : ℚ) : ℤ :=
  if q - ⌊q⌋ < 1/2 then ⌊q⌋
  else if 1/2 < q - ⌊q⌋ then ⌊q⌋ + 1
  else if Even ⌊q⌋ then ⌊q⌋ else ⌊q⌋ + 1

def EMU_PER_INCH : ℕ := 914400

/-- `emu_to_px(emu, dpi) = int(round(emu / EMU_PER_INCH * dpi))`. -/
def emu_to_px (emu : ℤ) (dpi : ℕ) : ℤ :=
  pyround ((emu : ℚ) / EMU_PER_INCH * dpi)

/-- A rendered slide image: pixel dimensions plus the pixel grid. -/
structure Image where
  w : ℕ
  h : ℕ
  pix : ℕ → ℕ → RGB

/-- Numpy basic-slice index normalization against a dimension: negative
indices count from the end, then the index is clamped into `[0, dim]`. -/
def np_index (dim : ℕ) (i : ℤ) : ℕ :=
  if i < 0 then (max 0 (i + dim)).toNat else min i.toNat dim

/-- The pixel sub-rectangle `img_np[y1:y2, x1:x2]`, flattened row-major. -/
def region_pixels (img : Image) (y1 y2 x1 x2 : ℤ) : List RGB :=
  let ys := np_index img.h y1
  let ye := np_index img.h y2
  let xs := np_index img.w x1
  let xe := np_index img.w x2
  (List.range (ye - ys)).flatMap fun dy =>
    (List.range (xe - xs)).map fun dx => img.pix (ys + dy) (xs + dx)

/-- A slide shape as the agent sees it: identity, geometry in EMU, and the
text frame when `has_text_frame`. -/
structure Shape where
  shape_id : ℕ
  name : String
  left : ℤ
  top : ℤ
  width : ℤ
  height : ℤ
  tf : Option (List Paragraph)

/-- One audit record (`AuditItem` of the source). -/
structure AuditItem where
  slide : ℕ
  shape_id : ℕ
  name : String
  bbox_px : ℤ × ℤ × ℤ × ℤ
  measured_fg : RGB
  measured_bg : RGB
  ratio_before : ℝ
  ratio_after : ℝ
  fixed : Bool
  applied_color : Option RGB
  note : String

/-- Python `round(x, 3)`: value rounded to 3 decimals, ties to even. -/
noncomputable def pyround3 (x : ℝ) : ℝ :=
  (if x * 1000 - ⌊x * 1000⌋ < 1/2 then ⌊x * 1000⌋
   else if 1/2 < x * 1000 - ⌊x * 1000⌋ then ⌊x * 1000⌋ + 1
   else if Even ⌊x * 1000⌋ then ⌊x * 1000⌋ else ⌊x * 1000⌋ + 1 : ℤ) / 1000

/-- The agent's configuration surface. -/
structure Config where
  brand_dark : RGB
  brand_light : RGB
  min_contrast : ℝ
  dpi : ℕ
  pad : ℕ

/-- The body of the per-shape loop of `process_pptx` (one shape of one
slide): skip non-text shapes; enforce RTL; map the EMU bounding box to a
padded, clamped pixel rectangle; skip (without an audit record) when the
region is empty; otherwise estimate colors, remediate, rewrite run colors
when a fix was chosen, and emit the audit record with ratios rounded to 3
decimals. -/
noncomputable def shape_step (cfg : Config) (slide_no : ℕ) (img : Image)
    (scale_x scale_y : ℚ) (shp : Shape) : Shape × Option AuditItem :=
  match shp.tf with
  | none => (shp, none)
  | some tf0 =>
    let tf1 := ensure_paragraph_rtl tf0
    let left_px := pyint ((shp.left : ℚ) / EMU_PER_INCH * cfg.dpi * scale_x)
    let top_px := pyint ((shp.top : ℚ) / EMU_PER_INCH * cfg.dpi * scale_y)
    let w_px := pyint ((shp.width : ℚ) / EMU_PER_INCH * cfg.dpi * scale_x)
    let h_px := pyint ((shp.height : ℚ) / EMU_PER_INCH * cfg.dpi * scale_y)
    let x1 := max 0 (left_px - cfg.pad)
    let y1 := max 0 (top_px - cfg.pad)
    let x2 := min (img.w : ℤ) (left_px + w_px + cfg.pad)
    let y2 := min (img.h : ℤ) (top_px + h_px + cfg.pad)
    let region := region_pixels img y1 y2 x1 x2
    if region = [] then ({ shp with tf := some tf1 }, none)
    else
      let est := estimate_fg_bg_from_region region
      let current_colors := (tf1.flatMap fun p => p.runs).filterMap fun r => r.color
      let fg_before := if current_colors ≠ [] then medianColor current_colors else est.1
      let res := remediate cfg.brand_dark cfg.brand_light cfg.min_contrast fg_before est.2
      let tf2 := apply_fix tf1 res.applied
      ({ shp with tf := some tf2 },
        some { slide := slide_no, shape_id := shp.shape_id, name := shp.name
               bbox_px := (x1, y1, x2, y2)
               measured_fg := fg_before, measured_bg := est.2
               ratio_before := pyround3 (contrast_ratio fg_before est.2)
               ratio_after := pyround3 res.ratio_after
               fixed := res.fixed, applied_color := res.applied, note := res.note })

/-- `pptx_to_pdf`: fails when the `soffice` binary is missing, when the
converter exits non-zero, or when no PDF is produced; otherwise yields the
produced document (modelled by its rendered pages). -/
def pptx_to_pdf (soffice_found : Bool) (returncode : ℤ)
    (produced : List (List Image)) : Except String (List Image) :=
  if !soffice_found then
    .error "LibreOffice soffice not found on PATH"
  else if returncode ≠ 0 then
    .error "LibreOffice export failed"
  else
    match produced with
    | [] => .error "LibreOffice export produced no PDF."
    | pdf :: _ => .ok pdf

/-- What a successful remediation pass produces, and only then: the mutated
document and the complete audit list (`prs.save` and the audit write happen
after the loop). -/
structure ProcessResult where
  out_slides : List (List Shape)
  audits : List AuditItem

/-- `process_pptx`: render via `pptx_to_pdf` (any failure aborts the whole
document), assert the page count matches the slide count, then run the
per-shape step over every slide with that slide's measured scale factors;
the output document and audit report exist only in the success case. -/
noncomputable def process_pptx (cfg : Config) (slide_w slide_h : ℤ)
    (slides : List (List Shape)) (soffice_found : Bool) (returncode : ℤ)
    (produced : List (List Image)) : Except String ProcessResult :=
  match pptx_to_pdf soffice_found returncode produced with
  | .error e => .error e
  | .ok images =>
    if images.length ≠ slides.length then
      .error "Rendered page count differs from slide count."
    else
      let processed := (slides.zip images).enum.map fun pr =>
        let img := pr.2.2
        let scale_x : ℚ := (img.w : ℚ) / ((max 1 (emu_to_px slide_w cfg.dpi) : ℤ) : ℚ)
        let scale_y : ℚ := (img.h : ℚ) / ((max 1 (emu_to_px slide_h cfg.dpi) : ℤ) : ℚ)
        pr.2.1.map (shape_step cfg (pr.1 + 1) img scale_x scale_y)
      .ok { out_slides := processed.map fun l => l.map Prod.fst
            audits := processed.flatMap fun l => l.filterMap Prod.snd }

/-- Mirror of the python `mirror_left` / spec §4.1 transform.

Modelled from the spec: the geometry module `rtl_pptx_transformer.py` that
implements `mirror_left()` is not among the sources here (only its
documentation and callers are); the spec gives the contract
`mirror(left, width, containerWidth) = containerWidth − (left + width)`. -/
def mirror (left width containerWidth : ℤ) : ℤ :=
  containerWidth - (left + width)

end KsaTranslate

namespace KsaTranslate

lemma srgb_to_linear_nonneg {c : ℝ} (hc : 0 ≤ c) : 0 ≤ srgb_to_linear c := by
  unfold srgb_to_linear
  split_ifs
  · positivity
  · exact Real.rpow_nonneg (div_nonneg (by linarith) (by norm_num)) _

lemma srgb_to_linear_le_one {c : ℝ} (hc0 : 0 ≤ c) (hc1 : c ≤ 1) :
    srgb_to_linear c ≤ 1 := by
  unfold srgb_to_linear
  split_ifs with h
  · rw [div_le_one (by norm_num)]; linarith
  · exact Real.rpow_le_one (div_nonneg (by linarith) (by norm_num))
      (by rw [div_le_one (by norm_num)]; linarith) (by norm_num)

lemma rel_luminance_nonneg (c : RGB) : 0 ≤ rel_luminance c := by
  unfold rel_luminance
  have h1 := srgb_to_linear_nonneg (c := (c.r : ℝ) / 255) (by positivity)
  have h2 := srgb_to_linear_nonneg (c := (c.g : ℝ) / 255) (by positivity)
  have h3 := srgb_to_linear_nonneg (c := (c.b : ℝ) / 255) (by positivity)
  nlinarith

lemma rel_luminance_le_one {c : RGB} (hc : c.valid) : rel_luminance c ≤ 1 := by
  obtain ⟨hr, hg, hb⟩ := hc
  unfold rel_luminance
  have hr' : (c.r : ℝ) / 255 ≤ 1 := by
    rw [div_le_one (by norm_num)]; exact_mod_cast (by exact_mod_cast hr : (c.r : ℝ) ≤ 255)
  have hg' : (c.g : ℝ) / 255 ≤ 1 := by
    rw [div_le_one (by norm_num)]; exact_mod_cast (by exact_mod_cast hg : (c.g : ℝ) ≤ 255)
  have hb' : (c.b : ℝ) / 255 ≤ 1 := by
    rw [div_le_one (by norm_num)]; exact_mod_cast (by exact_mod_cast hb : (c.b : ℝ) ≤ 255)
  have h1 := srgb_to_linear_le_one (c := (c.r : ℝ) / 255) (by positivity) hr'
  have h2 := srgb_to_linear_le_one (c := (c.g : ℝ) / 255) (by positivity) hg'
  have h3 := srgb_to_linear_le_one (c := (c.b : ℝ) / 255) (by positivity) hb'
  nlinarith

lemma rel_luminance_black : rel_luminance ⟨0, 0, 0⟩ = 0 := by
  unfold rel_luminance srgb_to_linear
  norm_num

lemma srgb_to_linear_one : srgb_to_linear 1 = 1 := by
  unfold srgb_to_linear
  rw [if_neg (by norm_num)]
  rw [show ((1 : ℝ) + 0.055) / 1.055 = 1 by norm_num, Real.one_rpow]

lemma rel_luminance_white : rel_luminance ⟨255, 255, 255⟩ = 1 := by
  unfold rel_luminance
  rw [show ((255 : ℕ) : ℝ) / 255 = 1 by norm_num, srgb_to_linear_one]
  norm_num

lemma contrast_ratio_white_black :
    contrast_ratio ⟨255, 255, 255⟩ ⟨0, 0, 0⟩ = 21 := by
  unfold contrast_ratio
  rw [rel_luminance_white, rel_luminance_black]
  norm_num

lemma contrast_ratio_black_white :
    contrast_ratio ⟨0, 0, 0⟩ ⟨255, 255, 255⟩ = 21 := by
  unfold contrast_ratio
  rw [rel_luminance_white, rel_luminance_black]
  norm_num

lemma contrast_ratio_self (c : RGB) : contrast_ratio c c = 1 := by
  unfold contrast_ratio
  have h := rel_luminance_nonneg c
  rw [if_pos le_rfl, div_self (by linarith)]

lemma contrast_ratio_black_left (bg : RGB) :
    contrast_ratio ⟨0, 0, 0⟩ bg = (rel_luminance bg + 0.05) / 0.05 := by
  have hb := rel_luminance_nonneg bg
  simp only [contrast_ratio, rel_luminance_black]
  split_ifs with h
  · have h0 : rel_luminance bg = 0 := le_antisymm h hb
    rw [h0]; norm_num
  · norm_num

lemma contrast_ratio_white_left {bg : RGB} (hbg : bg.valid) :
    contrast_ratio ⟨255, 255, 255⟩ bg = 1.05 / (rel_luminance bg + 0.05) := by
  simp only [contrast_ratio]
  rw [rel_luminance_white, if_pos (rel_luminance_le_one hbg)]
  norm_num

/-- Any color's contrast against a fixed background is dominated by the better
of pure black and pure white against that background. -/
lemma contrast_le_max_bw {fg bg : RGB} (hfg : fg.valid) (hbg : bg.valid) :
    contrast_ratio fg bg ≤
      max (contrast_ratio ⟨0, 0, 0⟩ bg) (contrast_ratio ⟨255, 255, 255⟩ bg) := by
  have hf0 := rel_luminance_nonneg fg
  have hf1 := rel_luminance_le_one hfg
  have hb0 := rel_luminance_nonneg bg
  have hb1 := rel_luminance_le_one hbg
  rw [contrast_ratio_black_left, contrast_ratio_white_left hbg]
  simp only [contrast_ratio]
  split_ifs with h
  · refine le_max_of_le_right ?_
    rw [div_le_div_iff (by linarith) (by linarith)]
    nlinarith [mul_nonneg (by linarith : (0:ℝ) ≤ 1 - rel_luminance fg)
      (by linarith : (0:ℝ) ≤ rel_luminance bg + 0.05)]
  · refine le_max_of_le_left ?_
    rw [div_le_div_iff (by linarith) (by norm_num)]
    nlinarith [mul_nonneg (rel_luminance_nonneg fg)
      (by linarith : (0:ℝ) ≤ rel_luminance bg + 0.05)]

/-- In every branch of the remediation policy the resulting `ratio_after`
dominates the measured `ratio_before`. -/
lemma remediate_ratio_mono (bd bl : RGB) (mc : ℝ) {fg bg : RGB}
    (hfg : fg.valid) (hbg : bg.valid) :
    contrast_ratio fg bg ≤ (remediate bd bl mc fg bg).ratio_after := by
  simp only [remediate]
  split_ifs with h1 h2 h3 h4
  · exact le_of_lt h2
  · exact le_of_lt h2
  · exact contrast_le_max_bw hfg hbg
  · exact contrast_le_max_bw hfg hbg
  · exact le_rfl

/-! ### Rational bracketing of the gamma exponent `** 2.4` -/

lemma rpow24_pow5 {x : ℝ} (hx : 0 ≤ x) : (x ^ (2.4:ℝ)) ^ (5:ℕ) = x ^ (12:ℕ) := by
  rw [← Real.rpow_natCast (x ^ (2.4:ℝ)) 5, ← Real.rpow_mul hx, ← Real.rpow_natCast x 12]
  norm_num

lemma rpow_24_le {x b : ℝ} (hx : 0 ≤ x) (hb : 0 ≤ b) (h : x ^ 12 ≤ b ^ 5) :
    x ^ (2.4:ℝ) ≤ b := by
  have h5 : (x ^ (2.4:ℝ)) ^ 5 ≤ b ^ 5 := by rw [rpow24_pow5 hx]; exact h
  exact le_of_pow_le_pow_left (by norm_num) hb h5

lemma le_rpow_24 {x a : ℝ} (hx : 0 ≤ x) (ha : 0 ≤ a) (h : a ^ 5 ≤ x ^ 12) :
    a ≤ x ^ (2.4:ℝ) := by
  have hr : 0 ≤ x ^ (2.4:ℝ) := Real.rpow_nonneg hx _
  have h5 : a ^ 5 ≤ (x ^ (2.4:ℝ)) ^ 5 := by rw [rpow24_pow5 hx]; exact h
  exact le_of_pow_le_pow_left (by norm_num) hr h5

/-- Bracket the gamma expansion of a channel above the 0.04045 cutoff between
two rationals certified through fifth powers against `x^12`. -/
lemma srgb_to_linear_bounds {c x lo hi : ℝ} (hc : ¬ c ≤ 0.04045)
    (hx : (c + 0.055) / 1.055 = x) (hx0 : 0 ≤ x) (hlo : 0 ≤ lo) (hhi : 0 ≤ hi)
    (h1 : lo ^ 5 ≤ x ^ 12) (h2 : x ^ 12 ≤ hi ^ 5) :
    lo ≤ srgb_to_linear c ∧ srgb_to_linear c ≤ hi := by
  unfold srgb_to_linear
  rw [if_neg hc, hx]
  exact ⟨le_rpow_24 hx0 hlo h1, rpow_24_le hx0 hhi h2⟩

lemma lin13 : (0.0040247:ℝ) ≤ srgb_to_linear (13/255) ∧
    srgb_to_linear (13/255) ≤ 0.0040248 :=
  srgb_to_linear_bounds (x := 1081/10761) (by norm_num) (by norm_num) (by norm_num)
    (by norm_num) (by norm_num) (by norm_num) (by norm_num)

lemma lin42 : (0.0231533:ℝ) ≤ srgb_to_linear (42/255) ∧
    srgb_to_linear (42/255) ≤ 0.0231534 :=
  srgb_to_linear_bounds (x := 2241/10761) (by norm_num) (by norm_num) (by norm_num)
    (by norm_num) (by norm_num) (by norm_num) (by norm_num)

lemma lin71 : (0.0630100:ℝ) ≤ srgb_to_linear (71/255) ∧
    srgb_to_linear (71/255) ≤ 0.0630101 :=
  srgb_to_linear_bounds (x := 3401/10761) (by norm_num) (by norm_num) (by norm_num)
    (by norm_num) (by norm_num) (by norm_num) (by norm_num)

lemma lin234 : (0.8227857:ℝ) ≤ srgb_to_linear (234/255) ∧
    srgb_to_linear (234/255) ≤ 0.8227858 :=
  srgb_to_linear_bounds (x := 9921/10761) (by norm_num) (by norm_num) (by norm_num)
    (by norm_num) (by norm_num) (by norm_num) (by norm_num)

lemma lin239 : (0.8631572:ℝ) ≤ srgb_to_linear (239/255) ∧
    srgb_to_linear (239/255) ≤ 0.8631573 :=
  srgb_to_linear_bounds (x := 10121/10761) (by norm_num) (by norm_num) (by norm_num)
    (by norm_num) (by norm_num) (by norm_num) (by norm_num)

lemma lin241 : (0.8796223:ℝ) ≤ srgb_to_linear (241/255) ∧
    srgb_to_linear (241/255) ≤ 0.8796224 :=
  srgb_to_linear_bounds (x := 10201/10761) (by norm_num) (by norm_num) (by norm_num)
    (by norm_num) (by norm_num) (by norm_num) (by norm_num)

lemma lin242 : (0.8879231:ℝ) ≤ srgb_to_linear (242/255) ∧
    srgb_to_linear (242/255) ≤ 0.8879232 :=
  srgb_to_linear_bounds (x := 10241/10761) (by norm_num) (by norm_num) (by norm_num)
    (by norm_num) (by norm_num) (by norm_num) (by norm_num)

lemma cumW_succ (gray : List ℕ) (t : ℕ) :
    cumW gray (t + 1) = cumW gray t + (gray.count t : ℚ) :=
  Finset.sum_range_succ _ _

lemma cumS_succ (gray : List ℕ) (t : ℕ) :
    cumS gray (t + 1) = cumS gray t + (t : ℚ) * (gray.count t : ℚ) :=
  Finset.sum_range_succ _ _

lemma cumW_nonneg (gray : List ℕ) (t : ℕ) : 0 ≤ cumW gray t :=
  Finset.sum_nonneg fun i _ => by positivity

lemma cumW_eq_countP (gray : List ℕ) (t : ℕ) :
    cumW gray t = ((gray.countP fun g => decide (g < t)) : ℚ) := by
  induction gray with
  | nil => simp [cumW]
  | cons a l ih =>
    unfold cumW at ih ⊢
    simp only [List.count_cons, List.countP_cons]
    push_cast
    rw [Finset.sum_add_distrib, ih]
    congr 1
    simp only [beq_iff_eq]
    rw [Finset.sum_ite_eq (Finset.range t) a fun _ => (1 : ℚ)]
    by_cases hat : a < t
    · simp [Finset.mem_range.mpr hat, hat]
    · simp [Finset.mem_range, hat]

lemma cumW_le_length (gray : List ℕ) (t : ℕ) :
    cumW gray t ≤ (gray.length : ℚ) := by
  rw [cumW_eq_countP]
  exact_mod_cast List.countP_le_length _

lemma cumW_total {gray : List ℕ} (h256 : ∀ g ∈ gray, g < 256) :
    cumW gray 256 = (gray.length : ℚ) := by
  rw [cumW_eq_countP]
  norm_cast
  exact List.countP_eq_length.mpr fun g hg => by simpa using h256 g hg

lemma cumW_mono (gray : List ℕ) {s t : ℕ} (h : s ≤ t) :
    cumW gray s ≤ cumW gray t :=
  Finset.sum_le_sum_of_subset_of_nonneg
    (Finset.range_subset.mpr h) (fun i _ _ => by positivity)

lemma var_between_zero_left {gray : List ℕ} {t : ℕ} (h : cumW gray (t + 1) = 0) :
    var_between gray t = 0 := by
  unfold var_between
  rw [if_pos (Or.inl h)]

lemma var_between_zero_right {gray : List ℕ} {t : ℕ}
    (h : (gray.length : ℚ) - cumW gray (t + 1) = 0) :
    var_between gray t = 0 := by
  unfold var_between
  rw [if_pos (Or.inr h)]

/-- Invariant of the Otsu loop: starting at bin `t` with the accumulators
matching the prefix sums and the current `(max_var, threshold)` dominating all
bins below `t`, the final threshold dominates every bin. -/
lemma otsu_go_max (gray : List ℕ) (h256 : ∀ g ∈ gray, g < 256) :
    ∀ n t sum_b w_b max_var th, t + n = 256 →
      w_b = cumW gray t →
      sum_b = cumS gray t →
      ((max_var = -1 ∧ th = 127 ∧ ∀ i, i < t → var_between gray i = 0) ∨
        (0 ≤ max_var ∧ max_var = var_between gray th ∧
          ∀ i, i < t → var_between gray i ≤ max_var)) →
      ∀ i, i < 256 →
        var_between gray i ≤
          var_between gray
            (otsu_go (fun b => (gray.count b : ℚ)) (gray.length : ℚ)
              (cumS gray 256) n t sum_b w_b max_var th) := by
  intro n
  induction n with
  | zero =>
    intro t sum_b w_b max_var th htn hw hs hinv i hi
    simp only [otsu_go]
    have ht : t = 256 := by omega
    rcases hinv with ⟨_, hth, hz⟩ | ⟨_, hv, hle⟩
    · rw [hth, hz i (by omega), hz 127 (by omega)]
    · exact hv ▸ hle i (by omega)
  | succ n ih =>
    intro t sum_b w_b max_var th htn hw hs hinv
    subst hw hs
    have hWsucc : cumW gray (t + 1) = cumW gray t + (gray.count t : ℚ) :=
      cumW_succ gray t
    have hSsucc : cumS gray (t + 1) = cumS gray t + (t : ℚ) * (gray.count t : ℚ) :=
      cumS_succ gray t
    simp only [otsu_go]
    split_ifs with hA hB hC
    · -- continue branch: the bin is empty and so is the whole prefix
      have hc : (gray.count t : ℚ) = 0 := by
        have h1 := cumW_nonneg gray t
        have h2 : (0:ℚ) ≤ (gray.count t : ℚ) := by positivity
        linarith
      have hVt : var_between gray t = 0 :=
        var_between_zero_left (by rw [hWsucc]; exact hA)
      refine ih (t + 1) _ _ max_var th (by omega) hWsucc.symm
        (by rw [hSsucc, hc]; ring) ?_
      rcases hinv with ⟨hm, hth, hz⟩ | ⟨hm, hv, hle⟩
      · refine Or.inl ⟨hm, hth, fun i hi => ?_⟩
        rcases Nat.lt_succ_iff_lt_or_eq.mp hi with h | h
        · exact hz i h
        · rw [h]; exact hVt
      · refine Or.inr ⟨hm, hv, fun i hi => ?_⟩
        rcases Nat.lt_succ_iff_lt_or_eq.mp hi with h | h
        · exact hle i h
        · rw [h, hVt]; exact hm
    · -- break branch: all remaining mass is on the left, every later split
      -- is degenerate
      intro i hi
      have hzero : ∀ j, t ≤ j → j < 256 → var_between gray j = 0 := by
        intro j htj hj
        apply var_between_zero_right
        have h1 : cumW gray (t + 1) ≤ cumW gray (j + 1) :=
          cumW_mono gray (by omega)
        have h2 : cumW gray (j + 1) ≤ (gray.length : ℚ) :=
          cumW_le_length gray (j + 1)
        have h3 : (gray.length : ℚ) - cumW gray (t + 1) = 0 := by
          rw [hWsucc]; exact hB
        linarith
      rcases hinv with ⟨_, hth, hz⟩ | ⟨hm, hv, hle⟩
      · have hVth : var_between gray th = 0 := by
          rcases lt_or_le th t with h | h
          · exact hz th h
          · exact hzero th h (by omega)
        rcases lt_or_le i t with h | h
        · rw [hz i h, hVth]
        · rw [hzero i h hi, hVth]
      · rcases lt_or_le i t with h | h
        · exact hv ▸ hle i h
        · rw [hzero i h hi, ← hv]; exact hm
    · -- improvement branch: the new threshold is `t` itself
      have h1 : (0:ℚ) ≤ cumW gray t + (gray.count t : ℚ) := by
        rw [← hWsucc]; exact cumW_nonneg gray (t + 1)
      have h2 : (0:ℚ) ≤ (gray.length : ℚ) - (cumW gray t + (gray.count t : ℚ)) := by
        rw [← hWsucc]
        linarith [cumW_le_length gray (t + 1)]
      have hVt : var_between gray t =
          (cumW gray t + (gray.count t : ℚ)) *
            ((gray.length : ℚ) - (cumW gray t + (gray.count t : ℚ))) *
            ((cumS gray t + (t : ℚ) * (gray.count t : ℚ)) /
                (cumW gray t + (gray.count t : ℚ)) -
              (cumS gray 256 - (cumS gray t + (t : ℚ) * (gray.count t : ℚ))) /
                ((gray.length : ℚ) - (cumW gray t + (gray.count t : ℚ)))) ^ 2 := by
        unfold var_between
        rw [if_neg]
        · rw [hWsucc, hSsucc]
        · push_neg
          constructor
          · rw [hWsucc]; exact hA
          · rw [hWsucc]; exact hB
      have hv0 : 0 ≤ (cumW gray t + (gray.count t : ℚ)) *
          ((gray.length : ℚ) - (cumW gray t + (gray.count t : ℚ))) *
          ((cumS gray t + (t : ℚ) * (gray.count t : ℚ)) /
              (cumW gray t + (gray.count t : ℚ)) -
            (cumS gray 256 - (cumS gray t + (t : ℚ) * (gray.count t : ℚ))) /
              ((gray.length : ℚ) - (cumW gray t + (gray.count t : ℚ)))) ^ 2 := by
        positivity
      refine ih (t + 1) _ _ _ t (by omega) hWsucc.symm hSsucc.symm
        (Or.inr ⟨hv0, by rw [hVt], ?_⟩)
      intro i hi
      rcases Nat.lt_succ_iff_lt_or_eq.mp hi with h | h
      · rcases hinv with ⟨hm, _, hz⟩ | ⟨_, hv, hle⟩
        · rw [hz i h]; exact hv0
        · exact le_of_lt (lt_of_le_of_lt (hle i h) (hv ▸ hC))
      · rw [h, hVt]
    · -- no improvement: keep the previous best, which must exist
      have h1 : (0:ℚ) ≤ cumW gray t + (gray.count t : ℚ) := by
        rw [← hWsucc]; exact cumW_nonneg gray (t + 1)
      have h2 : (0:ℚ) ≤ (gray.length : ℚ) - (cumW gray t + (gray.count t : ℚ)) := by
        rw [← hWsucc]
        linarith [cumW_le_length gray (t + 1)]
      have hv0 : 0 ≤ (cumW gray t + (gray.count t : ℚ)) *
          ((gray.length : ℚ) - (cumW gray t + (gray.count t : ℚ))) *
          ((cumS gray t + (t : ℚ) * (gray.count t : ℚ)) /
              (cumW gray t + (gray.count t : ℚ)) -
            (cumS gray 256 - (cumS gray t + (t : ℚ) * (gray.count t : ℚ))) /
              ((gray.length : ℚ) - (cumW gray t + (gray.count t : ℚ)))) ^ 2 := by
        positivity
      rcases hinv with ⟨hm, _, _⟩ | ⟨hm, hv, hle⟩
      · exact absurd (lt_of_lt_of_le (by norm_num : (-1:ℚ) < 0) hv0) (hm ▸ hC)
      · have hVt : var_between gray t ≤ max_var := by
          have hveq : var_between gray t =
              (cumW gray t + (gray.count t : ℚ)) *
                ((gray.length : ℚ) - (cumW gray t + (gray.count t : ℚ))) *
                ((cumS gray t + (t : ℚ) * (gray.count t : ℚ)) /
                    (cumW gray t + (gray.count t : ℚ)) -
                  (cumS gray 256 - (cumS gray t + (t : ℚ) * (gray.count t : ℚ))) /
                    ((gray.length : ℚ) - (cumW gray t + (gray.count t : ℚ)))) ^ 2 := by
            unfold var_between
            rw [if_neg]
            · rw [hWsucc, hSsucc]
            · push_neg
              constructor
              · rw [hWsucc]; exact hA
              · rw [hWsucc]; exact hB
          rw [hveq]
          exact le_of_not_lt hC
        refine ih (t + 1) _ _ max_var th (by omega) hWsucc.symm hSsucc.symm
          (Or.inr ⟨hm, hv, ?_⟩)
        intro i hi
        rcases Nat.lt_succ_iff_lt_or_eq.mp hi with h | h
        · exact hle i h
        · rw [h]; exact hVt

/-- The threshold returned by `otsu_threshold` maximizes the between-class
variance over all 256 candidate thresholds. -/
lemma otsu_threshold_max {gray : List ℕ} (h256 : ∀ g ∈ gray, g < 256) :
    ∀ i, i < 256 →
      var_between gray i ≤ var_between gray (otsu_threshold gray) := by
  intro i hi
  unfold otsu_threshold
  exact otsu_go_max gray h256 256 0 0 0 (-1) 127 rfl (by simp [cumW])
    (by simp [cumS]) (Or.inl ⟨rfl, rfl, fun j hj => absurd hj (Nat.not_lt_zero j)⟩)
    i hi

lemma grayOf_lt_256 {p : RGB} (hp : p.valid) : grayOf p < 256 := by
  obtain ⟨hr, hg, hb⟩ := hp
  unfold grayOf
  rw [Nat.div_lt_iff_lt_mul (by norm_num)]
  omega

lemma grays_lt_256 {region : List RGB} (hv : ∀ p ∈ region, p.valid) :
    ∀ g ∈ region.map grayOf, g < 256 := by
  intro g hg
  obtain ⟨p, hp, rfl⟩ := List.mem_map.mp hg
  exact grayOf_lt_256 (hv p hp)

lemma cluster_split_medians (region : List RGB) (mask : RGB → Bool)
    (h1 : region.filter mask ≠ []) (h2 : region.filter (fun p => ! mask p) ≠ []) :
    cluster_split region mask =
      (medianColor (region.filter mask),
        medianColor (region.filter fun p => ! mask p)) ∨
    cluster_split region mask =
      (medianColor (region.filter fun p => ! mask p),
        medianColor (region.filter mask)) := by
  simp only [cluster_split]
  rw [if_neg (by push_neg; exact ⟨h1, h2⟩)]
  split_ifs with h
  · exact Or.inr rfl
  · exact Or.inl rfl

lemma cluster_split_fg_le_bg (region : List RGB) (mask : RGB → Bool) :
    rel_luminance (cluster_split region mask).1 ≤
      rel_luminance (cluster_split region mask).2 := by
  simp only [cluster_split]
  split_ifs with h1 h2
  · have h0 : rel_luminance (⟨0, 0, 0⟩ : RGB) ≤
        rel_luminance (medianColor region) := by
      rw [rel_luminance_black]; exact rel_luminance_nonneg _
    exact h0
  · exact le_of_lt h2
  · exact le_of_not_lt h2

/-! ### Validity of measured colors, and monotonicity of audit rounding -/

lemma getD_le_255 {s : List ℕ} (h : ∀ x ∈ s, x ≤ 255) (i : ℕ) :
    s.getD i 0 ≤ 255 := by
  rcases lt_or_le i s.length with hi | hi
  · rw [List.getD_eq_getElem s 0 hi]
    exact h _ (List.getElem_mem hi)
  · rw [List.getD_eq_default s 0 hi]
    norm_num

lemma medianNat_le_255 {l : List ℕ} (h : ∀ x ∈ l, x ≤ 255) :
    medianNat l ≤ 255 := by
  unfold medianNat
  split_ifs with h0 _hodd
  · norm_num
  · exact getD_le_255 (fun x hx => h x ((List.mem_mergeSort).mp hx)) _
  · have h1 : (l.mergeSort (· ≤ ·)).getD (l.length / 2 - 1) 0 ≤ 255 :=
      getD_le_255 (fun x hx => h x ((List.mem_mergeSort).mp hx)) _
    have h2 : (l.mergeSort (· ≤ ·)).getD (l.length / 2) 0 ≤ 255 :=
      getD_le_255 (fun x hx => h x ((List.mem_mergeSort).mp hx)) _
    omega

lemma medianColor_valid {l : List RGB} (h : ∀ p ∈ l, p.valid) :
    (medianColor l).valid := by
  refine ⟨?_, ?_, ?_⟩ <;> apply medianNat_le_255 <;> intro x hx <;>
    obtain ⟨p, hp, rfl⟩ := List.mem_map.mp hx
  · exact (h p hp).1
  · exact (h p hp).2.1
  · exact (h p hp).2.2

lemma cluster_split_valid {region : List RGB} (mask : RGB → Bool)
    (h : ∀ p ∈ region, p.valid) :
    (cluster_split region mask).1.valid ∧ (cluster_split region mask).2.valid := by
  simp only [cluster_split]
  have hfg : ∀ p ∈ region.filter mask, p.valid :=
    fun p hp => h p (List.mem_of_mem_filter hp)
  have hbg : ∀ p ∈ region.filter (fun q => ! mask q), p.valid :=
    fun p hp => h p (List.mem_of_mem_filter hp)
  split_ifs with h1 h2
  · exact ⟨⟨by norm_num, by norm_num, by norm_num⟩, medianColor_valid h⟩
  · exact ⟨medianColor_valid hbg, medianColor_valid hfg⟩
  · exact ⟨medianColor_valid hfg, medianColor_valid hbg⟩

lemma estimate_valid {region : List RGB} (h : ∀ p ∈ region, p.valid) :
    (estimate_fg_bg_from_region region).1.valid ∧
      (estimate_fg_bg_from_region region).2.valid :=
  cluster_split_valid _ h

lemma region_pixels_valid {img : Image} (hp : ∀ x y, (img.pix y x).valid)
    (y1 y2 x1 x2 : ℤ) : ∀ p ∈ region_pixels img y1 y2 x1 x2, p.valid := by
  intro p hmem
  simp only [region_pixels, List.mem_flatMap, List.mem_map, List.mem_range] at hmem
  obtain ⟨dy, _, dx, _, rfl⟩ := hmem
  exact hp _ _

/-- The colors carried by the runs are untouched by RTL enforcement. -/
lemma ensure_paragraph_rtl_colors (tf : List Paragraph) :
    ((ensure_paragraph_rtl tf).flatMap fun p => p.runs).filterMap (fun r => r.color) =
      (tf.flatMap fun p => p.runs).filterMap fun r => r.color := by
  induction tf with
  | nil => rfl
  | cons p ps ih =>
    simp only [ensure_paragraph_rtl, List.map_cons, List.flatMap_cons,
      List.filterMap_append] at ih ⊢
    rw [ih, List.filterMap_map]
    rfl

/-- Ties-to-even rounding is monotone. -/
lemma round_he_mono {u v : ℝ} (h : u ≤ v) :
    (if u - ⌊u⌋ < 1/2 then ⌊u⌋
     else if 1/2 < u - ⌊u⌋ then ⌊u⌋ + 1
     else if Even ⌊u⌋ then ⌊u⌋ else ⌊u⌋ + 1) ≤
    (if v - ⌊v⌋ < 1/2 then ⌊v⌋
     else if 1/2 < v - ⌊v⌋ then ⌊v⌋ + 1
     else if Even ⌊v⌋ then ⌊v⌋ else ⌊v⌋ + 1) := by
  have hf : ⌊u⌋ ≤ ⌊v⌋ := Int.floor_le_floor h
  rcases eq_or_lt_of_le hf with he | hlt
  · have hd : u - ⌊u⌋ ≤ v - ⌊v⌋ := by
      rw [← he]
      have := Int.floor_le u
      linarith [he ▸ (Int.floor_le u)]
    rw [← he]
    split_ifs <;> first | omega | linarith
  · have h1 : (if u - ⌊u⌋ < 1/2 then ⌊u⌋
        else if 1/2 < u - ⌊u⌋ then ⌊u⌋ + 1
        else if Even ⌊u⌋ then ⌊u⌋ else ⌊u⌋ + 1) ≤ ⌊u⌋ + 1 := by
      split_ifs <;> omega
    have h2 : ⌊v⌋ ≤ (if v - ⌊v⌋ < 1/2 then ⌊v⌋
        else if 1/2 < v - ⌊v⌋ then ⌊v⌋ + 1
        else if Even ⌊v⌋ then ⌊v⌋ else ⌊v⌋ + 1) := by
      split_ifs <;> omega
    omega

/-- `round(x, 3)` is monotone, so the rounded audit ratios preserve order. -/
lemma pyround3_mono {x y : ℝ} (h : x ≤ y) : pyround3 x ≤ pyround3 y := by
  unfold pyround3
  have hm : x * 1000 ≤ y * 1000 := by linarith
  have := round_he_mono hm
  have hcast : ((if x * 1000 - ⌊x * 1000⌋ < 1/2 then ⌊x * 1000⌋
      else if 1/2 < x * 1000 - ⌊x * 1000⌋ then ⌊x * 1000⌋ + 1
      else if Even ⌊x * 1000⌋ then ⌊x * 1000⌋ else ⌊x * 1000⌋ + 1 : ℤ) : ℝ) ≤
      ((if y * 1000 - ⌊y * 1000⌋ < 1/2 then ⌊y * 1000⌋
      else if 1/2 < y * 1000 - ⌊y * 1000⌋ then ⌊y * 1000⌋ + 1
      else if Even ⌊y * 1000⌋ then ⌊y * 1000⌋ else ⌊y * 1000⌋ + 1 : ℤ) : ℝ) := by
    exact_mod_cast this
  linarith

/-- A text shape whose padded, clamped bounding box yields a zero-area pixel
region is skipped: RTL is still enforced, run colors stay untouched, and no
audit record is appended. -/
lemma shape_step_skips_empty_region (cfg : Config) (slide_no : ℕ)
    (img : Image) (sx sy : ℚ) (shp : Shape)
    (tf0 : List Paragraph) (htf : shp.tf = some tf0)
    (hreg : region_pixels img
        (max 0 (pyint ((shp.top : ℚ) / EMU_PER_INCH * cfg.dpi * sy) - cfg.pad))
        (min (img.h : ℤ) (pyint ((shp.top : ℚ) / EMU_PER_INCH * cfg.dpi * sy) +
          pyint ((shp.height : ℚ) / EMU_PER_INCH * cfg.dpi * sy) + cfg.pad))
        (max 0 (pyint ((shp.left : ℚ) / EMU_PER_INCH * cfg.dpi * sx) - cfg.pad))
        (min (img.w : ℤ) (pyint ((shp.left : ℚ) / EMU_PER_INCH * cfg.dpi * sx) +
          pyint ((shp.width : ℚ) / EMU_PER_INCH * cfg.dpi * sx) + cfg.pad)) = []) :
    shape_step cfg slide_no img sx sy shp =
      ({ shp with tf := some (ensure_paragraph_rtl tf0) }, none) := by
  simp only [shape_step, htf]
  rw [if_pos hreg]

lemma pyint_zero_arg :
    pyint (((0 : ℤ) : ℚ) / (EMU_PER_INCH : ℚ) * ((300 : ℕ) : ℚ) * 1) = 0 := by
  unfold pyint EMU_PER_INCH
  rw [if_pos (by norm_num)]
  rw [Int.floor_eq_iff]
  norm_num

lemma pyint_height_arg :
    pyint (((91440 : ℤ) : ℚ) / (EMU_PER_INCH : ℚ) * ((300 : ℕ) : ℚ) * 1) = 30 := by
  unfold pyint EMU_PER_INCH
  rw [if_pos (by norm_num)]
  rw [Int.floor_eq_iff]
  norm_num

lemma pyint_top_arg :
    pyint (((914400 : ℤ) : ℚ) / (EMU_PER_INCH : ℚ) * ((300 : ℕ) : ℚ) * 1) = 300 := by
  unfold pyint EMU_PER_INCH
  rw [if_pos (by norm_num)]
  rw [Int.floor_eq_iff]
  norm_num

/-- The concrete below-image shape's clamped pixel region is empty. -/
lemma region_empty_concrete :
    region_pixels ⟨100, 100, fun _ _ => ⟨255, 255, 255⟩⟩
      (max 0 (pyint (((914400 : ℤ) : ℚ) / (EMU_PER_INCH : ℚ) *
        ((300 : ℕ) : ℚ) * 1) - ((6 : ℕ) : ℤ)))
      (min ((100 : ℕ) : ℤ) (pyint (((914400 : ℤ) : ℚ) / (EMU_PER_INCH : ℚ) *
          ((300 : ℕ) : ℚ) * 1) +
        pyint (((91440 : ℤ) : ℚ) / (EMU_PER_INCH : ℚ) * ((300 : ℕ) : ℚ) * 1) +
        ((6 : ℕ) : ℤ)))
      (max 0 (pyint (((0 : ℤ) : ℚ) / (EMU_PER_INCH : ℚ) *
        ((300 : ℕ) : ℚ) * 1) - ((6 : ℕ) : ℤ)))
      (min ((100 : ℕ) : ℤ) (pyint (((0 : ℤ) : ℚ) / (EMU_PER_INCH : ℚ) *
          ((300 : ℕ) : ℚ) * 1) +
        pyint (((0 : ℤ) : ℚ) / (EMU_PER_INCH : ℚ) * ((300 : ℕ) : ℚ) * 1) +
        ((6 : ℕ) : ℤ))) = [] := by
  rw [pyint_zero_arg, pyint_top_arg, pyint_height_arg]
  norm_num [region_pixels, np_index]

end KsaTranslate

/-- C2: the contrast evaluator implements the WCAG two-color law over the
gamma-linearized relative luminances; in particular pure white against pure
black gives exactly 21 and any color against itself gives exactly 1. -/
theorem claim_C2_contrast_law :
    KsaTranslate.contrast_ratio ⟨255, 255, 255⟩ ⟨0, 0, 0⟩ = 21 ∧
    ∀ c : KsaTranslate.RGB, KsaTranslate.contrast_ratio c c = 1 :=
  ⟨KsaTranslate.contrast_ratio_white_black, KsaTranslate.contrast_ratio_self⟩

/-- C3: on foreground (234,239,241) over background (242,242,242) the measured
ratio is ≈ 1.036 (certified inside (1.035, 1.037)), below the default 4.5
threshold; with brand colors (13,42,71) and (255,255,255) the dark brand color
wins the comparison against the background and is the one applied, and the
resulting `ratio_after` is ≈ 13.03 (certified inside (13.02, 13.05)), with no
black/white fallback note. -/
theorem claim_C3_brand_selection :
    KsaTranslate.contrast_ratio ⟨234, 239, 241⟩ ⟨242, 242, 242⟩ < 4.5 ∧
    (1.035 < KsaTranslate.contrast_ratio ⟨234, 239, 241⟩ ⟨242, 242, 242⟩ ∧
      KsaTranslate.contrast_ratio ⟨234, 239, 241⟩ ⟨242, 242, 242⟩ < 1.037) ∧
    KsaTranslate.contrast_ratio ⟨255, 255, 255⟩ ⟨242, 242, 242⟩ ≤
      KsaTranslate.contrast_ratio ⟨13, 42, 71⟩ ⟨242, 242, 242⟩ ∧
    (KsaTranslate.remediate ⟨13, 42, 71⟩ ⟨255, 255, 255⟩ 4.5 ⟨234, 239, 241⟩
      ⟨242, 242, 242⟩).applied = some ⟨13, 42, 71⟩ ∧
    (KsaTranslate.remediate ⟨13, 42, 71⟩ ⟨255, 255, 255⟩ 4.5 ⟨234, 239, 241⟩
      ⟨242, 242, 242⟩).fixed = true ∧
    (KsaTranslate.remediate ⟨13, 42, 71⟩ ⟨255, 255, 255⟩ 4.5 ⟨234, 239, 241⟩
      ⟨242, 242, 242⟩).note = "" ∧
    (13.02 < (KsaTranslate.remediate ⟨13, 42, 71⟩ ⟨255, 255, 255⟩ 4.5
        ⟨234, 239, 241⟩ ⟨242, 242, 242⟩).ratio_after ∧
      (KsaTranslate.remediate ⟨13, 42, 71⟩ ⟨255, 255, 255⟩ 4.5 ⟨234, 239, 241⟩
        ⟨242, 242, 242⟩).ratio_after < 13.05) := by
  obtain ⟨h234l, h234u⟩ := KsaTranslate.lin234
  obtain ⟨h239l, h239u⟩ := KsaTranslate.lin239
  obtain ⟨h241l, h241u⟩ := KsaTranslate.lin241
  obtain ⟨h242l, h242u⟩ := KsaTranslate.lin242
  obtain ⟨h13l, h13u⟩ := KsaTranslate.lin13
  obtain ⟨h42l, h42u⟩ := KsaTranslate.lin42
  obtain ⟨h71l, h71u⟩ := KsaTranslate.lin71
  have efg : KsaTranslate.rel_luminance ⟨234, 239, 241⟩ =
      0.2126 * KsaTranslate.srgb_to_linear ((234:ℝ)/255) +
      0.7152 * KsaTranslate.srgb_to_linear ((239:ℝ)/255) +
      0.0722 * KsaTranslate.srgb_to_linear ((241:ℝ)/255) := by
    unfold KsaTranslate.rel_luminance; norm_num
  have ebg : KsaTranslate.rel_luminance ⟨242, 242, 242⟩ =
      0.2126 * KsaTranslate.srgb_to_linear ((242:ℝ)/255) +
      0.7152 * KsaTranslate.srgb_to_linear ((242:ℝ)/255) +
      0.0722 * KsaTranslate.srgb_to_linear ((242:ℝ)/255) := by
    unfold KsaTranslate.rel_luminance; norm_num
  have ebd : KsaTranslate.rel_luminance ⟨13, 42, 71⟩ =
      0.2126 * KsaTranslate.srgb_to_linear ((13:ℝ)/255) +
      0.7152 * KsaTranslate.srgb_to_linear ((42:ℝ)/255) +
      0.0722 * KsaTranslate.srgb_to_linear ((71:ℝ)/255) := by
    unfold KsaTranslate.rel_luminance; norm_num
  have hLf_lo : (0.8557629:ℝ) ≤ KsaTranslate.rel_luminance ⟨234, 239, 241⟩ := by
    rw [efg]; nlinarith
  have hLf_hi : KsaTranslate.rel_luminance ⟨234, 239, 241⟩ ≤ 0.8557631 := by
    rw [efg]; nlinarith
  have hLb_lo : (0.8879231:ℝ) ≤ KsaTranslate.rel_luminance ⟨242, 242, 242⟩ := by
    rw [ebg]; nlinarith
  have hLb_hi : KsaTranslate.rel_luminance ⟨242, 242, 242⟩ ≤ 0.8879232 := by
    rw [ebg]; nlinarith
  have hLd_lo : (0.0219642:ℝ) ≤ KsaTranslate.rel_luminance ⟨13, 42, 71⟩ := by
    rw [ebd]; nlinarith
  have hLd_hi : KsaTranslate.rel_luminance ⟨13, 42, 71⟩ ≤ 0.0219644 := by
    rw [ebd]; nlinarith
  have erb : KsaTranslate.contrast_ratio ⟨234, 239, 241⟩ ⟨242, 242, 242⟩ =
      (KsaTranslate.rel_luminance ⟨242, 242, 242⟩ + 0.05) /
        (KsaTranslate.rel_luminance ⟨234, 239, 241⟩ + 0.05) := by
    simp only [KsaTranslate.contrast_ratio]
    rw [if_neg (by push_neg; linarith)]
  have ecd : KsaTranslate.contrast_ratio ⟨13, 42, 71⟩ ⟨242, 242, 242⟩ =
      (KsaTranslate.rel_luminance ⟨242, 242, 242⟩ + 0.05) /
        (KsaTranslate.rel_luminance ⟨13, 42, 71⟩ + 0.05) := by
    simp only [KsaTranslate.contrast_ratio]
    rw [if_neg (by push_neg; linarith)]
  have ecl : KsaTranslate.contrast_ratio ⟨255, 255, 255⟩ ⟨242, 242, 242⟩ =
      1.05 / (KsaTranslate.rel_luminance ⟨242, 242, 242⟩ + 0.05) :=
    KsaTranslate.contrast_ratio_white_left ⟨by norm_num, by norm_num, by norm_num⟩
  have hrb_lo : (1.035:ℝ) <
      KsaTranslate.contrast_ratio ⟨234, 239, 241⟩ ⟨242, 242, 242⟩ := by
    rw [erb, lt_div_iff (by linarith)]; nlinarith
  have hrb_hi : KsaTranslate.contrast_ratio ⟨234, 239, 241⟩ ⟨242, 242, 242⟩ <
      1.037 := by
    rw [erb, div_lt_iff (by linarith)]; nlinarith
  have hcd_lo : (13.02:ℝ) <
      KsaTranslate.contrast_ratio ⟨13, 42, 71⟩ ⟨242, 242, 242⟩ := by
    rw [ecd, lt_div_iff (by linarith)]; nlinarith
  have hcd_hi : KsaTranslate.contrast_ratio ⟨13, 42, 71⟩ ⟨242, 242, 242⟩ <
      13.05 := by
    rw [ecd, div_lt_iff (by linarith)]; nlinarith
  have hcl_hi : KsaTranslate.contrast_ratio ⟨255, 255, 255⟩ ⟨242, 242, 242⟩ ≤ 2 := by
    rw [ecl, div_le_iff (by linarith)]; nlinarith
  have hge : KsaTranslate.contrast_ratio ⟨13, 42, 71⟩ ⟨242, 242, 242⟩ ≥
      KsaTranslate.contrast_ratio ⟨255, 255, 255⟩ ⟨242, 242, 242⟩ := by linarith
  have hmax : max (KsaTranslate.contrast_ratio ⟨13, 42, 71⟩ ⟨242, 242, 242⟩)
      (KsaTranslate.contrast_ratio ⟨255, 255, 255⟩ ⟨242, 242, 242⟩) =
      KsaTranslate.contrast_ratio ⟨13, 42, 71⟩ ⟨242, 242, 242⟩ := max_eq_left hge
  have hthr : KsaTranslate.contrast_ratio ⟨234, 239, 241⟩ ⟨242, 242, 242⟩ <
      (4.5:ℝ) := by linarith
  have hbest : max (KsaTranslate.contrast_ratio ⟨13, 42, 71⟩ ⟨242, 242, 242⟩)
      (KsaTranslate.contrast_ratio ⟨255, 255, 255⟩ ⟨242, 242, 242⟩) >
      KsaTranslate.contrast_ratio ⟨234, 239, 241⟩ ⟨242, 242, 242⟩ := by
    rw [hmax]; linarith
  have ered : KsaTranslate.remediate ⟨13, 42, 71⟩ ⟨255, 255, 255⟩ 4.5
      ⟨234, 239, 241⟩ ⟨242, 242, 242⟩ =
      ⟨max (KsaTranslate.contrast_ratio ⟨13, 42, 71⟩ ⟨242, 242, 242⟩)
        (KsaTranslate.contrast_ratio ⟨255, 255, 255⟩ ⟨242, 242, 242⟩),
        true, some ⟨13, 42, 71⟩, ""⟩ := by
    simp only [KsaTranslate.remediate]
    rw [if_pos hthr, if_pos hbest, if_pos hge]
  have e_app : (KsaTranslate.remediate ⟨13, 42, 71⟩ ⟨255, 255, 255⟩ 4.5
      ⟨234, 239, 241⟩ ⟨242, 242, 242⟩).applied = some ⟨13, 42, 71⟩ := by rw [ered]
  have e_fix : (KsaTranslate.remediate ⟨13, 42, 71⟩ ⟨255, 255, 255⟩ 4.5
      ⟨234, 239, 241⟩ ⟨242, 242, 242⟩).fixed = true := by rw [ered]
  have e_note : (KsaTranslate.remediate ⟨13, 42, 71⟩ ⟨255, 255, 255⟩ 4.5
      ⟨234, 239, 241⟩ ⟨242, 242, 242⟩).note = "" := by rw [ered]
  have e_after : (KsaTranslate.remediate ⟨13, 42, 71⟩ ⟨255, 255, 255⟩ 4.5
      ⟨234, 239, 241⟩ ⟨242, 242, 242⟩).ratio_after =
      KsaTranslate.contrast_ratio ⟨13, 42, 71⟩ ⟨242, 242, 242⟩ := by
    rw [ered]; exact hmax
  exact ⟨hthr, ⟨hrb_lo, hrb_hi⟩, hge, e_app, e_fix, e_note,
    by rw [e_after]; exact hcd_lo, by rw [e_after]; exact hcd_hi⟩

/-- C4: a shape whose measured contrast already meets the threshold is left
alone by the remediation policy: nothing is fixed, no color is applied or
recorded, `ratio_after` equals `ratio_before`, and the run colors of its text
frame are unchanged. -/
theorem claim_C4_above_threshold_untouched (bd bl : KsaTranslate.RGB) (mc : ℝ)
    (fg bg : KsaTranslate.RGB) (tf : List KsaTranslate.Paragraph)
    (h : mc ≤ KsaTranslate.contrast_ratio fg bg) :
    (KsaTranslate.remediate bd bl mc fg bg).fixed = false ∧
    (KsaTranslate.remediate bd bl mc fg bg).applied = none ∧
    (KsaTranslate.remediate bd bl mc fg bg).ratio_after =
      KsaTranslate.contrast_ratio fg bg ∧
    KsaTranslate.apply_fix tf (KsaTranslate.remediate bd bl mc fg bg).applied = tf := by
  have hnot : ¬ KsaTranslate.contrast_ratio fg bg < mc := not_lt.mpr h
  refine ⟨?_, ?_, ?_, ?_⟩ <;>
    simp [KsaTranslate.remediate, if_neg hnot, KsaTranslate.apply_fix]

/-- Witness for C4: a shape at ratio 21 (black on white) against the default
4.5 threshold is untouched. -/
theorem claim_C4_witness :
    (4.5 : ℝ) ≤ KsaTranslate.contrast_ratio ⟨0, 0, 0⟩ ⟨255, 255, 255⟩ ∧
    ((KsaTranslate.remediate ⟨13, 42, 71⟩ ⟨255, 255, 255⟩ 4.5 ⟨0, 0, 0⟩
        ⟨255, 255, 255⟩).fixed = false ∧
      (KsaTranslate.remediate ⟨13, 42, 71⟩ ⟨255, 255, 255⟩ 4.5 ⟨0, 0, 0⟩
        ⟨255, 255, 255⟩).applied = none ∧
      (KsaTranslate.remediate ⟨13, 42, 71⟩ ⟨255, 255, 255⟩ 4.5 ⟨0, 0, 0⟩
        ⟨255, 255, 255⟩).ratio_after =
        KsaTranslate.contrast_ratio ⟨0, 0, 0⟩ ⟨255, 255, 255⟩ ∧
      KsaTranslate.apply_fix [⟨none, none, none, [⟨some ⟨9, 9, 9⟩, none⟩]⟩]
        (KsaTranslate.remediate ⟨13, 42, 71⟩ ⟨255, 255, 255⟩ 4.5 ⟨0, 0, 0⟩
          ⟨255, 255, 255⟩).applied = [⟨none, none, none, [⟨some ⟨9, 9, 9⟩, none⟩]⟩]) :=
  ⟨by rw [KsaTranslate.contrast_ratio_black_white]; norm_num,
   claim_C4_above_threshold_untouched _ _ _ _ _ _
     (by rw [KsaTranslate.contrast_ratio_black_white]; norm_num)⟩

/-- C7: the mirror transform is `containerWidth − (left + width)` and is an
involution: applying it twice with the same width and container width restores
the original left coordinate. -/
theorem claim_C7_mirror_involution (left width containerWidth : ℤ) :
    KsaTranslate.mirror (KsaTranslate.mirror left width containerWidth)
      width containerWidth = left := by
  unfold KsaTranslate.mirror
  ring

/-- C8: RTL paragraph enforcement is idempotent: a second application leaves
every paragraph (alignment, rtl and algn flags, run language ids) exactly as
the first produced it. -/
theorem claim_C8_rtl_idempotent (tf : List KsaTranslate.Paragraph) :
    KsaTranslate.ensure_paragraph_rtl (KsaTranslate.ensure_paragraph_rtl tf) =
      KsaTranslate.ensure_paragraph_rtl tf := by
  unfold KsaTranslate.ensure_paragraph_rtl
  rw [List.map_map]
  apply List.map_congr_left
  intro p _
  simp [List.map_map]

/-- C10: the contrast ratio is symmetric in its two arguments: swapping the
measured foreground and background colors never changes the computed ratio. -/
theorem claim_C10_contrast_symm (a b : KsaTranslate.RGB) :
    KsaTranslate.contrast_ratio a b = KsaTranslate.contrast_ratio b a := by
  unfold KsaTranslate.contrast_ratio
  rcases le_or_lt (KsaTranslate.rel_luminance a) (KsaTranslate.rel_luminance b) with h | h
  · rcases eq_or_lt_of_le h with h' | h'
    · simp [h']
    · rw [if_pos h, if_neg (not_le.mpr h')]
  · rw [if_pos h.le, if_neg (not_le.mpr h)]

/-- C5: segmentation facts. (i) The Otsu threshold of a valid region's
grayscale maximizes the between-class variance over all 256 bins; (ii) when
the dark cluster is degenerate (under 2% or over 98% of the pixels) the
estimator splits instead at the 10th-percentile luminance fallback mask;
(iii) with both clusters non-empty the representative colors are the two
clusters' per-channel medians, in one order or the other; (iv) the returned
foreground never has higher relative luminance than the returned background. -/
theorem claim_C5_segmentation :
    (∀ region : List KsaTranslate.RGB, (∀ p ∈ region, p.valid) →
      ∀ t, t < 256 →
        KsaTranslate.var_between (region.map KsaTranslate.grayOf) t ≤
          KsaTranslate.var_between (region.map KsaTranslate.grayOf)
            (KsaTranslate.otsu_threshold (region.map KsaTranslate.grayOf))) ∧
    (∀ region : List KsaTranslate.RGB,
      KsaTranslate.dark_fraction region < 2/100 ∨
        98/100 < KsaTranslate.dark_fraction region →
      KsaTranslate.estimate_fg_bg_from_region region =
        KsaTranslate.cluster_split region (KsaTranslate.percentile_mask region)) ∧
    (∀ (region : List KsaTranslate.RGB) (mask : KsaTranslate.RGB → Bool),
      region.filter mask ≠ [] → region.filter (fun p => ! mask p) ≠ [] →
      KsaTranslate.cluster_split region mask =
        (KsaTranslate.medianColor (region.filter mask),
          KsaTranslate.medianColor (region.filter fun p => ! mask p)) ∨
      KsaTranslate.cluster_split region mask =
        (KsaTranslate.medianColor (region.filter fun p => ! mask p),
          KsaTranslate.medianColor (region.filter mask))) ∧
    (∀ region : List KsaTranslate.RGB, region ≠ [] →
      KsaTranslate.rel_luminance (KsaTranslate.estimate_fg_bg_from_region region).1 ≤
        KsaTranslate.rel_luminance (KsaTranslate.estimate_fg_bg_from_region region).2) := by
  refine ⟨?_, ?_, ?_, ?_⟩
  · intro region hv t ht
    exact KsaTranslate.otsu_threshold_max (KsaTranslate.grays_lt_256 hv) t ht
  · intro region hdeg
    unfold KsaTranslate.estimate_fg_bg_from_region KsaTranslate.region_mask
    rw [if_pos hdeg]
  · intro region mask h1 h2
    exact KsaTranslate.cluster_split_medians region mask h1 h2
  · intro region _
    exact KsaTranslate.cluster_split_fg_le_bg region _

/-- Witness for C5: the theorem applied to concrete two-pixel and one-pixel
regions. -/
theorem claim_C5_witness :
    (∀ p ∈ ([⟨0, 0, 0⟩, ⟨255, 255, 255⟩] : List KsaTranslate.RGB), p.valid) ∧
    KsaTranslate.var_between
        (([⟨0, 0, 0⟩, ⟨255, 255, 255⟩] : List KsaTranslate.RGB).map
          KsaTranslate.grayOf) 5 ≤
      KsaTranslate.var_between
        (([⟨0, 0, 0⟩, ⟨255, 255, 255⟩] : List KsaTranslate.RGB).map
          KsaTranslate.grayOf)
        (KsaTranslate.otsu_threshold
          (([⟨0, 0, 0⟩, ⟨255, 255, 255⟩] : List KsaTranslate.RGB).map
            KsaTranslate.grayOf)) ∧
    ([⟨7, 7, 7⟩] : List KsaTranslate.RGB) ≠ [] ∧
    KsaTranslate.rel_luminance
        (KsaTranslate.estimate_fg_bg_from_region [⟨7, 7, 7⟩]).1 ≤
      KsaTranslate.rel_luminance
        (KsaTranslate.estimate_fg_bg_from_region [⟨7, 7, 7⟩]).2 :=
  ⟨by decide, claim_C5_segmentation.1 _ (by decide) 5 (by norm_num),
    by simp, claim_C5_segmentation.2.2.2 _ (by simp)⟩

/-- C1: whenever the per-shape remediation step emits an audit record, that
record satisfies `ratio_after ≥ ratio_before` — for every configuration of
brand colors and of the `minContrast` threshold, including the branch where
both brand colors are rejected and the pure-black/pure-white fallback is
applied. -/
theorem claim_C1_audit_monotonic (cfg : KsaTranslate.Config) (slide_no : ℕ)
    (img : KsaTranslate.Image) (sx sy : ℚ) (shp : KsaTranslate.Shape)
    (himg : ∀ x y, (img.pix y x).valid)
    (hruns : ∀ tf0, shp.tf = some tf0 → ∀ p ∈ tf0, ∀ r ∈ p.runs,
      ∀ c, r.color = some c → c.valid) :
    ∀ a, (KsaTranslate.shape_step cfg slide_no img sx sy shp).2 = some a →
      a.ratio_before ≤ a.ratio_after := by
  intro a ha
  cases htf : shp.tf with
  | none => simp [KsaTranslate.shape_step, htf] at ha
  | some tf0 =>
    simp only [KsaTranslate.shape_step, htf] at ha
    set region := KsaTranslate.region_pixels img
      (max 0 (KsaTranslate.pyint ((shp.top : ℚ) / KsaTranslate.EMU_PER_INCH *
        cfg.dpi * sy) - cfg.pad))
      (min (img.h : ℤ) (KsaTranslate.pyint ((shp.top : ℚ) /
          KsaTranslate.EMU_PER_INCH * cfg.dpi * sy) +
        KsaTranslate.pyint ((shp.height : ℚ) / KsaTranslate.EMU_PER_INCH *
          cfg.dpi * sy) + cfg.pad))
      (max 0 (KsaTranslate.pyint ((shp.left : ℚ) / KsaTranslate.EMU_PER_INCH *
        cfg.dpi * sx) - cfg.pad))
      (min (img.w : ℤ) (KsaTranslate.pyint ((shp.left : ℚ) /
          KsaTranslate.EMU_PER_INCH * cfg.dpi * sx) +
        KsaTranslate.pyint ((shp.width : ℚ) / KsaTranslate.EMU_PER_INCH *
          cfg.dpi * sx) + cfg.pad)) with hregion
    have hregv : ∀ p ∈ region, p.valid := by
      rw [hregion]
      exact KsaTranslate.region_pixels_valid himg _ _ _ _
    have hcols : ∀ c ∈ ((KsaTranslate.ensure_paragraph_rtl tf0).flatMap
        fun p => p.runs).filterMap (fun r => r.color), c.valid := by
      rw [KsaTranslate.ensure_paragraph_rtl_colors]
      intro c hc
      obtain ⟨r, hr, hrc⟩ := List.mem_filterMap.mp hc
      obtain ⟨p, hp, hrp⟩ := List.mem_flatMap.mp hr
      exact hruns tf0 htf p hp r hrp c hrc
    have hest := KsaTranslate.estimate_valid hregv
    split_ifs at ha with h1 h2
    all_goals rw [Option.some_inj] at ha
    all_goals subst ha
    · exact KsaTranslate.pyround3_mono
        (KsaTranslate.remediate_ratio_mono cfg.brand_dark cfg.brand_light
          cfg.min_contrast (KsaTranslate.medianColor_valid hcols) hest.2)
    · exact KsaTranslate.pyround3_mono
        (KsaTranslate.remediate_ratio_mono cfg.brand_dark cfg.brand_light
          cfg.min_contrast hest.1 hest.2)

/-- Witness for C1: the monotonicity theorem applied to a concrete shape over
a concrete all-black image. -/
theorem claim_C1_witness :
    (∀ x y, ((⟨10, 10, fun _ _ => ⟨0, 0, 0⟩⟩ : KsaTranslate.Image).pix y x).valid) ∧
    (∀ a, (KsaTranslate.shape_step
        ⟨⟨13, 42, 71⟩, ⟨255, 255, 255⟩, 4.5, 300, 6⟩ 1
        ⟨10, 10, fun _ _ => ⟨0, 0, 0⟩⟩ 1 1
        ⟨1, "TextBox 1", 0, 0, 9144, 9144, some []⟩).2 = some a →
      a.ratio_before ≤ a.ratio_after) :=
  ⟨fun _ _ => show (⟨0, 0, 0⟩ : KsaTranslate.RGB).valid by decide,
    claim_C1_audit_monotonic _ _ _ _ _ _
      (fun _ _ => show (⟨0, 0, 0⟩ : KsaTranslate.RGB).valid by decide)
      (by
        intro tf0 htf p hp
        injection htf with h
        subst h
        exact absurd hp (List.not_mem_nil p))⟩

/-- C6: if the external rendering step fails (missing converter, non-zero
exit, or no produced PDF) or the rendered page count differs from the slide
count, `process_pptx` returns an error for the whole document: no output
document and no audit list exist (the success payload carrying both is never
produced). -/
theorem claim_C6_render_failure_atomic (cfg : KsaTranslate.Config)
    (slide_w slide_h : ℤ) (slides : List (List KsaTranslate.Shape))
    (soffice_found : Bool) (returncode : ℤ)
    (produced : List (List KsaTranslate.Image))
    (hfail : (∃ e, KsaTranslate.pptx_to_pdf soffice_found returncode produced =
        Except.error e) ∨
      (∃ images, KsaTranslate.pptx_to_pdf soffice_found returncode produced =
          Except.ok images ∧ images.length ≠ slides.length)) :
    ∃ e, KsaTranslate.process_pptx cfg slide_w slide_h slides soffice_found
      returncode produced = Except.error e := by
  rcases hfail with ⟨e, he⟩ | ⟨images, hok, hlen⟩
  · exact ⟨e, by simp [KsaTranslate.process_pptx, he]⟩
  · exact ⟨"Rendered page count differs from slide count.",
      by simp [KsaTranslate.process_pptx, hok, hlen]⟩

/-- Witness for C6: a missing `soffice` binary and, separately inside the
hypothesis, a concrete failing conversion abort the whole pass. -/
theorem claim_C6_witness :
    ((∃ e, KsaTranslate.pptx_to_pdf false 0 [] = Except.error e) ∨
      (∃ images, KsaTranslate.pptx_to_pdf false 0 [] = Except.ok images ∧
        images.length ≠ ([[]] : List (List KsaTranslate.Shape)).length)) ∧
    (∃ e, KsaTranslate.process_pptx
      ⟨⟨13, 42, 71⟩, ⟨255, 255, 255⟩, 4.5, 300, 6⟩ 9144000 6858000 [[]]
      false 0 [] = Except.error e) :=
  ⟨Or.inl ⟨"LibreOffice soffice not found on PATH", rfl⟩,
    claim_C6_render_failure_atomic _ _ _ _ _ _ _
      (Or.inl ⟨"LibreOffice soffice not found on PATH", rfl⟩)⟩

/-- Counterexample for C9: a text shape sitting entirely below the rendered
image yields a zero-area clamped pixel region, and the loop emits no audit
record at all for it — in particular no note recording the skip,
contradicting the claim that a note is emitted for the skipped shape. -/
theorem claim_C9_counterexample :
    (KsaTranslate.shape_step ⟨⟨13, 42, 71⟩, ⟨255, 255, 255⟩, 4.5, 300, 6⟩ 1
      ⟨100, 100, fun _ _ => ⟨255, 255, 255⟩⟩ 1 1
      ⟨2, "OffSlide", 0, 914400, 0, 91440,
        some [⟨none, none, none, [⟨some ⟨10, 20, 30⟩, none⟩]⟩]⟩).2 = none := by
  have h := KsaTranslate.shape_step_skips_empty_region
    ⟨⟨13, 42, 71⟩, ⟨255, 255, 255⟩, 4.5, 300, 6⟩ 1
    ⟨100, 100, fun _ _ => ⟨255, 255, 255⟩⟩ 1 1
    ⟨2, "OffSlide", 0, 914400, 0, 91440,
      some [⟨none, none, none, [⟨some ⟨10, 20, 30⟩, none⟩]⟩]⟩
    [⟨none, none, none, [⟨some ⟨10, 20, 30⟩, none⟩]⟩] rfl
    KsaTranslate.region_empty_concrete
  rw [h]

/-- C9 as amended: a text shape whose padded, clamped bounding box yields a
zero-area pixel region is skipped by the remediation loop — RTL enforcement
is still applied to its text frame, but its run colors are untouched and no
audit record (and so no note) is emitted for it. -/
theorem claim_C9_amended (cfg : KsaTranslate.Config) (slide_no : ℕ)
    (img : KsaTranslate.Image) (sx sy : ℚ) (shp : KsaTranslate.Shape)
    (tf0 : List KsaTranslate.Paragraph) (htf : shp.tf = some tf0)
    (hreg : KsaTranslate.region_pixels img
        (max 0 (KsaTranslate.pyint ((shp.top : ℚ) / KsaTranslate.EMU_PER_INCH *
          cfg.dpi * sy) - cfg.pad))
        (min (img.h : ℤ) (KsaTranslate.pyint ((shp.top : ℚ) /
            KsaTranslate.EMU_PER_INCH * cfg.dpi * sy) +
          KsaTranslate.pyint ((shp.height : ℚ) / KsaTranslate.EMU_PER_INCH *
            cfg.dpi * sy) + cfg.pad))
        (max 0 (KsaTranslate.pyint ((shp.left : ℚ) / KsaTranslate.EMU_PER_INCH *
          cfg.dpi * sx) - cfg.pad))
        (min (img.w : ℤ) (KsaTranslate.pyint ((shp.left : ℚ) /
            KsaTranslate.EMU_PER_INCH * cfg.dpi * sx) +
          KsaTranslate.pyint ((shp.width : ℚ) / KsaTranslate.EMU_PER_INCH *
            cfg.dpi * sx) + cfg.pad)) = []) :
    KsaTranslate.shape_step cfg slide_no img sx sy shp =
      ({ shp with tf := some (KsaTranslate.ensure_paragraph_rtl tf0) }, none) :=
  KsaTranslate.shape_step_skips_empty_region cfg slide_no img sx sy shp tf0 htf hreg

/-- Witness for C9's amended claim: the skip applied to the concrete
below-image shape. -/
theorem claim_C9_witness :
    ((⟨2, "OffSlide", 0, 914400, 0, 91440,
        some [⟨none, none, none, [⟨some ⟨10, 20, 30⟩, none⟩]⟩]⟩ :
          KsaTranslate.Shape).tf =
      some [⟨none, none, none, [⟨some ⟨10, 20, 30⟩, none⟩]⟩]) ∧
    KsaTranslate.shape_step ⟨⟨13, 42, 71⟩, ⟨255, 255, 255⟩, 4.5, 300, 6⟩ 1
      ⟨100, 100, fun _ _ => ⟨255, 255, 255⟩⟩ 1 1
      ⟨2, "OffSlide", 0, 914400, 0, 91440,
        some [⟨none, none, none, [⟨some ⟨10, 20, 30⟩, none⟩]⟩]⟩ =
      ({ (⟨2, "OffSlide", 0, 914400, 0, 91440,
          some [⟨none, none, none, [⟨some ⟨10, 20, 30⟩, none⟩]⟩]⟩ :
            KsaTranslate.Shape) with
          tf := some (KsaTranslate.ensure_paragraph_rtl
            [⟨none, none, none, [⟨some ⟨10, 20, 30⟩, none⟩]⟩]) }, none) :=
  ⟨rfl, claim_C9_amended _ _ _ _ _ _ _ rfl KsaTranslate.region_empty_concrete⟩
